import Mathlib

/-!
# Verification of the zulu dataset/training/prediction pipeline

Shallow embedding of `src/datasets.py`, `src/train.py` and `src/predict.py`.
Python strings are modelled as `List Char`, Python dicts as association
lists, images as rational grids (external raster/tensor operations such as
`TF.rotate`, `PIL` loading and `self.transforms` are abstract parameters),
and fallible Python operations (dict lookup, indexing, division by zero)
return `Option`.  Randomness (`random.randint`, `random.random`) is
modelled by explicit streams of pre-drawn values.
-/

/-- Python strings are sequences of characters. -/
abbrev Str := List Char

/-- Coerce a Lean string literal to the `Str` model. -/
def chars (s : String) : Str := s.toList

/-- Python `s.replace("\\", "/")` for a single-character pattern: pointwise map. -/
def pyReplaceBackslash (s : Str) : Str :=
  s.map (fun c => if c = '\\' then '/' else c)

/-- Python `s.split(sep)` for a one-character separator: splits at every
occurrence, keeping empty fragments; `"".split(sep) == [""]`. -/
def pySplit (sep : Char) : Str → List Str
  | [] => [[]]
  | c :: cs =>
    let rest := pySplit sep cs
    if c = sep then [] :: rest
    else (c :: rest.headI) :: rest.tail

/-- Python negative indexing `l[-k]` (for `k ≥ 1`): defined exactly when
`k ≤ len(l)`, otherwise an `IndexError` (modelled as `none`). -/
def pyNegIdx (l : List α) (k : ℕ) : Option α :=
  if 0 < k ∧ k ≤ l.length then l.get? (l.length - k) else none

/-- Model of `os.path.join(dirpath, filename)` on the paths this code builds
(posix-style separator insertion). -/
def joinPath (dirpath filename : Str) : Str :=
  dirpath ++ '/' :: filename

/-- Python `key in dirpath` substring test: `needle` occurs contiguously
in `hay`. -/
def strMatchesAt : Str → Str → Bool
  | [], _ => true
  | _ :: _, [] => false
  | a :: as, b :: bs => a = b && strMatchesAt as bs

/-- Substring containment, Python's `in` on strings. -/
def isSubstrOf (needle hay : Str) : Bool :=
  strMatchesAt needle hay ||
    match hay with
    | [] => false
    | _ :: t => isSubstrOf needle t

/-- Python dict lookup `d[k]` over the association-list model; `none`
models a `KeyError`. -/
def pyDictGet (k : Str) : List (Str × α) → Option α
  | [] => none
  | (k', v) :: rest => if k' = k then some v else pyDictGet k rest

/-- Model of `random.randint(lo, hi)` given a raw draw `v` from the random stream:
the result always lands in `[lo, hi]` when `lo ≤ hi`. -/
def pyRandint (lo hi v : ℤ) : ℤ :=
  lo + (v - lo) % (hi - lo + 1)

/-- Python `sorted` on lists of strings: ascending lexicographic order by
code point (`List Char` lexicographic order). -/
def sortFilenames (filenames : List Str) : List Str :=
  List.insertionSort (· ≤ ·) filenames

/-- Images are grids of pixel values; channel/band structure and the
external raster operations are abstracted away. -/
abbrev Img := List (List ℚ)

/-- Model of `TF.vflip`: vertical flip reverses the rows of the image. -/
def vflip (image : Img) : Img := image.reverse

/-- Model of `TF.hflip`: horizontal flip reverses each row of the image. -/
def hflip (image : Img) : Img := image.map List.reverse

/-- Model of `EurosatDataset.preprocess`: divide every pixel by `max_pix_value`
(default 10000). -/
def preprocess (image : Img) (maxPixValue : ℚ) : Img :=
  image.map (fun row => row.map (fun v => v / maxPixValue))

/-- Model of `EurosatDataset.get_category_from_filepath`:
`filepath.replace("\\", "/").split("/")[-2]`. -/
def getCategoryFromFilepath (filepath : Str) : Option Str :=
  pyNegIdx (pySplit '/' (pyReplaceBackslash filepath)) 2

/-- Model of `EurosatDataset.horizontal_flip`: flips when the uniform draw exceeds
`p = 0.75`. -/
def eurosatHorizontalFlip (image : Img) (coin : ℚ) : Img :=
  if coin > 3/4 then hflip image else image

/-- Model of `EurosatDataset.vertical_flip`: flips when the uniform draw exceeds
`p = 0.75`. -/
def eurosatVerticalFlip (image : Img) (coin : ℚ) : Img :=
  if coin > 3/4 then vflip image else image

/-- Model of `EurosatDataset.rotate`: when the uniform draw exceeds `p = 0.75`,
rotates by `random.randint(-30, 30)` degrees; `rot` is the external
`TF.rotate`. -/
def eurosatRotate (rot : ℤ → Img → Img) (image : Img) (coin : ℤ → ℚ)
    (rngDraw : ℤ) : Img :=
  if coin 0 > 3/4 then rot (pyRandint (-30) 30 rngDraw) image else image

/-- The data-augmentation stage of `EurosatDataset.__getitem__`
(lines 138–145): one of three transforms chosen by
`random.randint(0, 2)`. -/
def eurosatAugment (rot : ℤ → Img → Img) (useAug : Bool) (rng : ℕ → ℤ)
    (coin : ℤ → ℚ) (image : Img) : Img :=
  if useAug then
    let transformIdx := pyRandint 0 2 (rng 0)
    if transformIdx = 0 then eurosatHorizontalFlip image (coin 0)
    else if transformIdx = 1 then eurosatVerticalFlip image (coin 0)
    else eurosatRotate rot image coin (rng 1)
  else image

/-- Model of `EurosatDataset.__getitem__`: derives the category from the filepath,
looks up the target in the category manifest (`KeyError` as `none`),
normalizes the loaded image via `preprocess`, then optionally applies one
randomly chosen spatial augmentation, and returns `{X, Y}`. The external
`gdal` load is abstracted by passing the loaded `image` directly. -/
def eurosatGetItem (categories : List (Str × ℤ)) (rot : ℤ → Img → Img)
    (useAug : Bool) (rng : ℕ → ℤ) (coin : ℤ → ℚ) (filepath : Str)
    (image : Img) : Option (Img × ℤ) :=
  match getCategoryFromFilepath filepath with
  | none => none
  | some category =>
    match pyDictGet category categories with
    | none => none
    | some target =>
      let image := preprocess image 10000
      let image :=
        if useAug then
          let transformIdx := pyRandint 0 2 (rng 0)
          if transformIdx = 0 then eurosatHorizontalFlip image (coin 0)
          else if transformIdx = 1 then eurosatVerticalFlip image (coin 0)
          else eurosatRotate rot image coin (rng 1)
        else image
      some (image, target)


/-! ## Object-detection annotation model (`src/datasets.py` lines 560–594, 734–777) -/

/-- A region's `shape_attributes` dict: x, y, width, height. -/
structure ShapeAttrs where
  x : ℚ
  y : ℚ
  width : ℚ
  height : ℚ
deriving DecidableEq

/-- One entry of an annotation's `regions` list. -/
structure Region where
  shape_attributes : ShapeAttrs
deriving DecidableEq

/-- A per-tile annotation value: a dict with a `regions` list. -/
structure Annots where
  regions : List Region
deriving DecidableEq

/-- The target dict built by `make_bounding_box_from_annotation`:
a `boxes` tensor of shape `(len, 4)` (a list of 4-tuples) and an int64
`labels` tensor (a list of integers). -/
structure BBTarget where
  boxes : List (ℚ × ℚ × ℚ × ℚ)
  labels : List ℤ
deriving DecidableEq

/-- One region's box `[x, y, x_max, y_max]`, rescaled by the
width/height ratios when both image sizes are given. -/
def scaleBox (sa : ShapeAttrs) (origSize transSize : Option (ℚ × ℚ)) :
    ℚ × ℚ × ℚ × ℚ :=
  let xMax := sa.x + sa.width
  let yMax := sa.y + sa.height
  match origSize, transSize with
  | some (ow, oh), some (tw, th) =>
    let widthRatio := tw / ow
    let heightRatio := th / oh
    (sa.x * widthRatio, sa.y * heightRatio, xMax * widthRatio, yMax * heightRatio)
  | _, _ => (sa.x, sa.y, xMax, yMax)

/-- Model of `XYZObjectDetectionDatasetTwo.make_bounding_box_from_annotation`
(lines 734–777): for `None` annotations, an empty `(0, 4)` boxes tensor
and an empty int64 labels tensor; otherwise one box and one label `1`
per region. -/
def makeBoundingBoxFromAnnots (annots : Option Annots)
    (origSize transSize : Option (ℚ × ℚ)) : BBTarget :=
  match annots with
  | none => ⟨[], []⟩
  | some a =>
    ⟨a.regions.map (fun r => scaleBox r.shape_attributes origSize transSize),
     a.regions.map (fun _ => (1 : ℤ))⟩

/-! ## Sample records and directory-walk indexing -/

/-- Heterogeneous Python dict values occurring in sample records. -/
inductive PyVal where
  | pstr (s : Str)
  | pstrs (l : List Str)
  | pbool (b : Bool)
  | pshape (a : ShapeAttrs)
  | pannots (a : Option Annots)
deriving DecidableEq

/-- A sample record is a Python dict. -/
abbrev SampleRec := List (Str × PyVal)

/-- One `os.walk` entry: `(dirpath, dirnames, filenames)`. -/
structure WalkEntry where
  dirpath : Str
  dirnames : List Str
  filenames : List Str
deriving DecidableEq

/-- Running state of the indexing loops in the dataset constructors:
the positive/negative counters and the samples list. -/
structure ScanState where
  numPos : ℕ
  numNeg : ℕ
  samples : List SampleRec
deriving DecidableEq

/-- The sample dict built by `XYZTileDataset.__init__` (lines 185–189). -/
def xyzRecord (dirpath filename : Str) (label : Bool) : SampleRec :=
  [(chars "dirpath", .pstr dirpath), (chars "filename", .pstr filename),
   (chars "label", .pbool label)]

/-- Innermost loop of `XYZTileDataset.__init__`: per filename, bump the
class counter and append the sample dict. -/
def xyzFileStep (dirpath : Str) (label : Bool) (st : ScanState)
    (filename : Str) : ScanState :=
  if label then
    ⟨st.numPos + 1, st.numNeg, st.samples ++ [xyzRecord dirpath filename label]⟩
  else
    ⟨st.numPos, st.numNeg + 1, st.samples ++ [xyzRecord dirpath filename label]⟩

/-- Per-category step of `XYZTileDataset.__init__`: guarded by
`key in dirpath`. -/
def xyzCatStep (e : WalkEntry) (st : ScanState) (kv : Str × Bool) : ScanState :=
  if isSubstrOf kv.1 e.dirpath then
    e.filenames.foldl (xyzFileStep e.dirpath kv.2) st
  else st

/-- Per-walk-entry step of `XYZTileDataset.__init__`: only leaf
directories (`if not dirnames`) are indexed. -/
def xyzWalkStep (cats : List (Str × Bool)) (st : ScanState)
    (e : WalkEntry) : ScanState :=
  if e.dirnames = [] then cats.foldl (xyzCatStep e) st else st

/-- The indexing loop of `XYZTileDataset.__init__` (lines 172–190) over a
directory walk. -/
def xyzScan (walk : List WalkEntry) (cats : List (Str × Bool)) : ScanState :=
  walk.foldl (xyzWalkStep cats) ⟨0, 0, []⟩

/-- The sample dict built by `ConvLSTMCDataset.__init__` (lines 334–338):
the whole filenames list of the leaf directory. -/
def convRecord (dirpath : Str) (filenames : List Str) (label : Bool) : SampleRec :=
  [(chars "dirpath", .pstr dirpath), (chars "filenames", .pstrs filenames),
   (chars "label", .pbool label)]

/-- Per-category step of `ConvLSTMCDataset.__init__`: one sample (and one
counter bump) per matching leaf directory. -/
def convCatStep (e : WalkEntry) (st : ScanState) (kv : Str × Bool) : ScanState :=
  if isSubstrOf kv.1 e.dirpath then
    if kv.2 then
      ⟨st.numPos + 1, st.numNeg,
       st.samples ++ [convRecord e.dirpath e.filenames kv.2]⟩
    else
      ⟨st.numPos, st.numNeg + 1,
       st.samples ++ [convRecord e.dirpath e.filenames kv.2]⟩
  else st

/-- Per-walk-entry step of `ConvLSTMCDataset.__init__`. -/
def convWalkStep (cats : List (Str × Bool)) (st : ScanState)
    (e : WalkEntry) : ScanState :=
  if e.dirnames = [] then cats.foldl (convCatStep e) st else st

/-- The indexing loop of `ConvLSTMCDataset.__init__` (lines 322–339). -/
def convScan (walk : List WalkEntry) (cats : List (Str × Bool)) : ScanState :=
  walk.foldl (convWalkStep cats) ⟨0, 0, []⟩

/-- The sample dict built by `XYZObjectDetectionDataset.__init__`
(lines 499–504): it additionally carries the annotation. -/
def objDetRecord (dirpath filename : Str) (ann : ShapeAttrs) (label : Bool) :
    SampleRec :=
  [(chars "dirpath", .pstr dirpath), (chars "filename", .pstr filename),
   (chars "annotation", .pshape ann), (chars "label", .pbool label)]

/-- Innermost loop of `XYZObjectDetectionDataset.__init__`. -/
def objDetFileStep (dirpath : Str) (ann : ShapeAttrs) (label : Bool)
    (st : ScanState) (filename : Str) : ScanState :=
  if label then
    ⟨st.numPos + 1, st.numNeg,
     st.samples ++ [objDetRecord dirpath filename ann label]⟩
  else
    ⟨st.numPos, st.numNeg + 1,
     st.samples ++ [objDetRecord dirpath filename ann label]⟩

/-- Per-annotation step of `XYZObjectDetectionDataset.__init__`: guarded
by `tile_idx in dirpath`. -/
def objDetAnnStep (e : WalkEntry) (label : Bool) (st : ScanState)
    (ta : Str × ShapeAttrs) : ScanState :=
  if isSubstrOf ta.1 e.dirpath then
    e.filenames.foldl (objDetFileStep e.dirpath ta.2 label) st
  else st

/-- Per-category step of `XYZObjectDetectionDataset.__init__`: skips
negative categories when `pos_only` is set (`continue`), and is guarded
by `key in dirpath`. -/
def objDetCatStep (annotsDict : List (Str × ShapeAttrs)) (posOnly : Bool)
    (e : WalkEntry) (st : ScanState) (kv : Str × Bool) : ScanState :=
  if !kv.2 && posOnly then st
  else if isSubstrOf kv.1 e.dirpath then
    annotsDict.foldl (objDetAnnStep e kv.2) st
  else st

/-- Per-walk-entry step of `XYZObjectDetectionDataset.__init__`. -/
def objDetWalkStep (cats : List (Str × Bool))
    (annotsDict : List (Str × ShapeAttrs)) (posOnly : Bool) (st : ScanState)
    (e : WalkEntry) : ScanState :=
  if e.dirnames = [] then cats.foldl (objDetCatStep annotsDict posOnly e) st
  else st

/-- The indexing loop of `XYZObjectDetectionDataset.__init__`
(lines 482–505). -/
def objDetScan (walk : List WalkEntry) (cats : List (Str × Bool))
    (annotsDict : List (Str × ShapeAttrs)) (posOnly : Bool) : ScanState :=
  walk.foldl (objDetWalkStep cats annotsDict posOnly) ⟨0, 0, []⟩

/-- Model of `XYZObjectDetectionDatasetTwo.__getitem__` (lines 780–800): reads the
record's `annotations` value, reads its `filepath` value, loads the image
(external, abstracted by `load`), and builds the bounding-box target from
the annotations; `origSize` stands for `image.size`. A missing dict key
is a `KeyError`, modelled as `none`. -/
def datasetTwoGetItem (load : Str → Img) (origSize : ℚ × ℚ)
    (sample : SampleRec) : Option (Img × BBTarget) :=
  match pyDictGet (chars "annotations") sample with
  | some (.pannots annots) =>
    match pyDictGet (chars "filepath") sample with
    | some (.pstr filepath) =>
      let image := load filepath
      some (image,
        makeBoundingBoxFromAnnots annots (some origSize) (some (224, 224)))
    | _ => none
  | _ => none

/-! ## Class weights (`src/datasets.py` lines 191–197 and 340–346) -/

/-- The class-weight computation shared by `XYZTileDataset.__init__` and
`ConvLSTMCDataset.__init__`: `neg_class_weight = 1 - num_neg/(num_neg +
num_pos)`, `pos_class_weight = 1 - num_pos/(num_neg + num_pos)`, each
replaced by its square root when `use_sqrt_weights` is set; the result is
the pair `(neg_class_weight, pos_class_weight)` in that order.  A zero
sample count is Python's `ZeroDivisionError`, modelled as `none`. -/
noncomputable def classWeights (useSqrt : Bool) (numPos numNeg : ℕ) :
    Option (ℝ × ℝ) :=
  if numNeg + numPos = 0 then none
  else if useSqrt then
    some (Real.sqrt (1 - (numNeg : ℝ) / ((numNeg : ℝ) + (numPos : ℝ))),
          Real.sqrt (1 - (numPos : ℝ) / ((numNeg : ℝ) + (numPos : ℝ))))
  else
    some (1 - (numNeg : ℝ) / ((numNeg : ℝ) + (numPos : ℝ)),
          1 - (numPos : ℝ) / ((numNeg : ℝ) + (numPos : ℝ)))

/-! ## `ConvLSTMCDataset` item assembly (`src/datasets.py` lines 401–457) -/

/-- Model of `ConvLSTMCDataset.spatial_transform` (lines 407–418): index 0 is the
identity, 1 is a vertical flip, 2 is a horizontal flip, anything else is
a rotation by `angle`; `rot` is the external `TF.rotate`. -/
def spatialTransform (rot : ℤ → Img → Img) (image : Img) (angle : ℤ)
    (idx : ℤ) : Img :=
  if idx = 0 then image
  else if idx = 1 then vflip image
  else if idx = 2 then hflip image
  else rot angle image

/-- Model of `ConvLSTMCDataset.__getitem__` (lines 421–457): sorts the record's
filenames, draws one transform index (range 0–3 with rotation, 0–2
without) and one angle (drawn only with rotation, otherwise 0) before the
frame loop, then maps every sorted filename to its loaded, transformed
frame, applying the one drawn spatial transform to each.  `load` stands
for `read_png` composed with `self.transforms` and the float/contiguous
conversion; `rng` is the stream of raw `random.randint` draws. -/
def convGetItem (load : Str → Img) (rot : ℤ → Img → Img)
    (useAug useRot : Bool) (rng : ℕ → ℤ) (sample : SampleRec) :
    Option (List Img × Bool) :=
  match pyDictGet (chars "dirpath") sample,
        pyDictGet (chars "filenames") sample,
        pyDictGet (chars "label") sample with
  | some (.pstr dirpath), some (.pstrs filenamesRaw), some (.pbool label) =>
    let filenames := sortFilenames filenamesRaw
    let transformIdx : ℤ :=
      if useRot then pyRandint 0 3 (rng 0) else pyRandint 0 2 (rng 0)
    let randomAngle : ℤ :=
      if useRot then pyRandint (-30) 30 (rng 1) else 0
    let frames := filenames.map (fun filename =>
      let image := load (pyReplaceBackslash (joinPath dirpath filename))
      if useAug then spatialTransform rot image randomAngle transformIdx
      else image)
    some (frames, label)
  | _, _, _ => none

/-! ## Prediction driver (`src/predict.py` lines 30–42) -/

/-- The names bound in the class body of `ConvLSTMCDataset`
(`src/datasets.py` lines 303–457); its base class
(`torch.utils.data.Dataset`) provides no `sample_gen` or `save_preds`
either. -/
def convLSTMCDatasetMembers : List Str :=
  [chars "__name__", chars "DEFAULT_DATA_MANIFEST",
   chars "DEFAULT_USE_DATA_AUG", chars "DEFAULT_USE_ROTATION",
   chars "DEFAULT_USE_SQRT_WEIGHTS", chars "MAX_ANGLE", chars "INPUT_SIZE",
   chars "__init__", chars "parse_args", chars "__len__", chars "read_png",
   chars "read_png_as_arr", chars "sort_filenames",
   chars "spatial_transform", chars "__getitem__"]

/-- Python class attribute access `ConvLSTMCDataset.<name>`: an
`AttributeError` (modelled as `none`) when the class does not define the
name. -/
def classGetattr (members : List Str) (name : Str) : Option Str :=
  if name ∈ members then some name else none

/-- Model of `SAMPLE_GENERATORS` (predict.py lines 36–38): evaluating the dict
literal requires the attribute `ConvLSTMCDataset.sample_gen`. -/
def sampleGeneratorsDict : Option (List (Str × Str)) :=
  match classGetattr convLSTMCDatasetMembers (chars "sample_gen") with
  | some attr => some [(chars "CNNLSTM", attr)]
  | none => none

/-- Model of `PRED_SAVE_FUNCTIONS` (predict.py lines 40–42): evaluating the dict
literal requires the attribute `ConvLSTMCDataset.save_preds`. -/
def predSaveFunctionsDict : Option (List (Str × Str)) :=
  match classGetattr convLSTMCDatasetMembers (chars "save_preds") with
  | some attr => some [(chars "CNNLSTM", attr)]
  | none => none

/-! ## Training driver checkpointing (`src/train.py` lines 371, 488–492) -/

/-- The checkpoint condition of `train.main` (line 488):
`(save_model and epoch % save_every == 0) or epoch == num_epochs`. -/
def savesCheckpointAt (saveModel : Bool) (saveEvery numEpochs epoch : ℕ) :
    Bool :=
  (saveModel && epoch % saveEvery == 0) || epoch == numEpochs

/-- The epochs at which the training loop (`for epoch in range(1,
num_epochs + 1)`) saves a checkpoint. -/
def checkpointEpochs (saveModel : Bool) (saveEvery numEpochs : ℕ) : List ℕ :=
  (List.range' 1 numEpochs).filter (savesCheckpointAt saveModel saveEvery numEpochs)

/-! ## Helper lemmas -/

/-- A property preserved by every step of a `foldl` holds of the result. -/
theorem foldlPreserves {α β : Type} (P : α → Prop) (f : α → β → α)
    (hf : ∀ st b, P st → P (f st b)) :
    ∀ (l : List β) (st : α), P st → P (l.foldl f st)
  | [], _, h => h
  | b :: l, st, h => foldlPreserves P f hf l (f st b) (hf st b h)

/-- Lemma: `pyRandint lo hi v` lands in `[lo, hi]` whenever `lo ≤ hi`. -/
theorem pyRandint_bounds (lo hi v : ℤ) (h : lo ≤ hi) :
    lo ≤ pyRandint lo hi v ∧ pyRandint lo hi v ≤ hi := by
  unfold pyRandint
  have h1 : (0:ℤ) < hi - lo + 1 := by omega
  have h2 := Int.emod_nonneg (v - lo) (by omega : hi - lo + 1 ≠ 0)
  have h3 := Int.emod_lt_of_pos (v - lo) h1
  omega

/-- Lemma: `pySplit` never returns the empty list of fragments. -/
theorem pySplit_ne_nil (sep : Char) (l : Str) : pySplit sep l ≠ [] := by
  induction l with
  | nil => simp [pySplit]
  | cons c cs ih =>
    simp only [pySplit]
    split <;> simp

/-- Splitting a concatenation at an explicit separator splits each part. -/
theorem pySplit_append_sep (sep : Char) (a b : Str) :
    pySplit sep (a ++ sep :: b) = pySplit sep a ++ pySplit sep b := by
  induction a with
  | nil => simp [pySplit]
  | cons c cs ih =>
    have hne := pySplit_ne_nil sep cs
    cases hx : pySplit sep cs with
    | nil => exact absurd hx hne
    | cons h t =>
      by_cases hc : c = sep
      · subst hc
        simp [pySplit, ih, hx]
      · simp [pySplit, hc, ih, hx]

/-- A string without the separator splits into itself alone. -/
theorem pySplit_no_sep (sep : Char) (l : Str) (h : sep ∉ l) :
    pySplit sep l = [l] := by
  induction l with
  | nil => rfl
  | cons c cs ih =>
    rw [List.mem_cons, not_or] at h
    have hrest : pySplit sep cs = [cs] := ih h.2
    have hc : ¬ c = sep := fun hc => h.1 hc.symm
    simp [pySplit, hrest, hc]

/-- Backslash replacement is the identity on backslash-free strings. -/
theorem pyReplaceBackslash_eq_self (l : Str) (h : '\\' ∉ l) :
    pyReplaceBackslash l = l := by
  induction l with
  | nil => rfl
  | cons c cs ih =>
    rw [List.mem_cons, not_or] at h
    have hc : ¬ c = '\\' := fun hc => h.1 hc.symm
    have hcs := ih h.2
    simp only [pyReplaceBackslash, List.map_cons] at hcs ⊢
    rw [if_neg hc, hcs]

/-! ## C10 -/

/-- C10: for `None` annotations, `XYZObjectDetectionDatasetTwo.
make_bounding_box_from_annotation` returns a target with an empty
`(0, 4)` boxes tensor and an empty int64 labels tensor, for any pair of
image sizes, without raising. -/
theorem c10_make_bbox_none_empty (origSize transSize : Option (ℚ × ℚ)) :
    makeBoundingBoxFromAnnots none origSize transSize =
      ⟨([] : List (ℚ × ℚ × ℚ × ℚ)), ([] : List ℤ)⟩ := rfl

/-- Witness: the empty target at concrete sizes. -/
theorem c10_make_bbox_none_empty_witness :
    makeBoundingBoxFromAnnots none (some (256, 256)) (some (224, 224)) =
      ⟨([] : List (ℚ × ℚ × ℚ × ℚ)), ([] : List ℤ)⟩ :=
  c10_make_bbox_none_empty (some (256, 256)) (some (224, 224))

/-! ## C3 -/

/-- C3 (code bug): building `SAMPLE_GENERATORS` and `PRED_SAVE_FUNCTIONS`
in `predict.py` evaluates `ConvLSTMCDataset.sample_gen` and
`ConvLSTMCDataset.save_preds`, attributes the class does not define, so
both dict literals raise `AttributeError` (both lookups are `none`) and
the prediction driver can never reach `main`. -/
theorem c3_predict_tables_attr_missing :
    sampleGeneratorsDict = none ∧ predSaveFunctionsDict = none := by
  constructor <;> decide

/-! ## C4 -/

/-- C4: within a training run of `num_epochs ≥ 1` epochs (and a positive
`save_every`, as required for Python's `%` to be defined), the driver
checkpoints at epoch `e` exactly when `save_model` is enabled and
`save_every` divides `e`, or `e` is the final epoch; in particular the
final epoch is always checkpointed, even with `save_model` disabled. -/
theorem c4_checkpoint_condition (saveModel : Bool) (saveEvery numEpochs : ℕ)
    (hne : 1 ≤ numEpochs) (hse : 0 < saveEvery) :
    numEpochs ∈ checkpointEpochs saveModel saveEvery numEpochs ∧
    ∀ epoch : ℕ, epoch ∈ checkpointEpochs saveModel saveEvery numEpochs ↔
      1 ≤ epoch ∧ epoch ≤ numEpochs ∧
        ((saveModel = true ∧ epoch % saveEvery = 0) ∨ epoch = numEpochs) := by
  have hmem : ∀ epoch : ℕ,
      epoch ∈ checkpointEpochs saveModel saveEvery numEpochs ↔
        1 ≤ epoch ∧ epoch ≤ numEpochs ∧
          ((saveModel = true ∧ epoch % saveEvery = 0) ∨ epoch = numEpochs) := by
    intro epoch
    unfold checkpointEpochs savesCheckpointAt
    rw [List.mem_filter, List.mem_range'_1]
    simp only [Bool.or_eq_true, Bool.and_eq_true, beq_iff_eq]
    constructor
    · rintro ⟨⟨h1, h2⟩, h3⟩
      exact ⟨h1, by omega, h3⟩
    · rintro ⟨h1, h2, h3⟩
      exact ⟨⟨h1, by omega⟩, h3⟩
  exact ⟨(hmem numEpochs).2 ⟨hne, le_refl _, Or.inr rfl⟩, hmem⟩

/-- Witness: with `save_model` disabled, `save_every = 8` and five
epochs, the final (fifth) epoch is still checkpointed. -/
theorem c4_checkpoint_condition_witness :
    5 ∈ checkpointEpochs false 8 5 :=
  (c4_checkpoint_condition false 8 5 (by decide) (by decide)).1

/-! ## C2 -/

/-- C2: with at least one indexed sample, the class weights are
`(num_pos/(num_pos+num_neg), num_neg/(num_pos+num_neg))` —
negative-class weight first, each class weighted by the other class's
fraction — they sum to 1, the minority class's weight is at least the
majority class's, and with `use_sqrt_weights` each weight is the square
root of that value. -/
theorem c2_class_weight_values (numPos numNeg : ℕ) (h : 0 < numPos + numNeg) :
    classWeights false numPos numNeg =
      some ((numPos : ℝ) / ((numPos : ℝ) + (numNeg : ℝ)),
            (numNeg : ℝ) / ((numPos : ℝ) + (numNeg : ℝ))) ∧
    (numPos : ℝ) / ((numPos : ℝ) + (numNeg : ℝ)) +
      (numNeg : ℝ) / ((numPos : ℝ) + (numNeg : ℝ)) = 1 ∧
    (numPos ≤ numNeg →
      (numPos : ℝ) / ((numPos : ℝ) + (numNeg : ℝ)) ≤
        (numNeg : ℝ) / ((numPos : ℝ) + (numNeg : ℝ))) ∧
    (numNeg ≤ numPos →
      (numNeg : ℝ) / ((numPos : ℝ) + (numNeg : ℝ)) ≤
        (numPos : ℝ) / ((numPos : ℝ) + (numNeg : ℝ))) ∧
    classWeights true numPos numNeg =
      some (Real.sqrt ((numPos : ℝ) / ((numPos : ℝ) + (numNeg : ℝ))),
            Real.sqrt ((numNeg : ℝ) / ((numPos : ℝ) + (numNeg : ℝ)))) := by
  have hnat : numNeg + numPos ≠ 0 := by omega
  have hS : (0:ℝ) < (numPos : ℝ) + (numNeg : ℝ) := by
    have : (0:ℝ) < ((numPos + numNeg : ℕ) : ℝ) := by exact_mod_cast h
    push_cast at this
    linarith
  have hne : (numNeg : ℝ) + (numPos : ℝ) ≠ 0 := by linarith
  have e1 : (1:ℝ) - (numNeg : ℝ) / ((numNeg : ℝ) + (numPos : ℝ)) =
      (numPos : ℝ) / ((numPos : ℝ) + (numNeg : ℝ)) := by
    rw [add_comm (numNeg : ℝ) (numPos : ℝ), eq_div_iff (ne_of_gt hS), sub_mul,
      one_mul, div_mul_cancel₀ _ (ne_of_gt hS)]
    ring
  have e2 : (1:ℝ) - (numPos : ℝ) / ((numNeg : ℝ) + (numPos : ℝ)) =
      (numNeg : ℝ) / ((numPos : ℝ) + (numNeg : ℝ)) := by
    rw [add_comm (numNeg : ℝ) (numPos : ℝ), eq_div_iff (ne_of_gt hS), sub_mul,
      one_mul, div_mul_cancel₀ _ (ne_of_gt hS)]
    ring
  refine ⟨?_, ?_, ?_, ?_, ?_⟩
  · unfold classWeights
    rw [if_neg hnat, if_neg (by simp : ¬ (false = true)), e1, e2]
  · rw [div_add_div_same, div_self (by linarith)]
  · intro hle
    have : (numPos : ℝ) ≤ (numNeg : ℝ) := by exact_mod_cast hle
    gcongr
  · intro hle
    have : (numNeg : ℝ) ≤ (numPos : ℝ) := by exact_mod_cast hle
    gcongr
  · unfold classWeights
    rw [if_neg hnat, if_pos rfl, e1, e2]

/-- Witness: one positive and two negative samples give weights
`(1/3, 2/3)` (and their square roots with `use_sqrt_weights`). -/
theorem c2_class_weight_values_witness :
    classWeights false 1 2 =
      some (((1 : ℕ) : ℝ) / (((1 : ℕ) : ℝ) + ((2 : ℕ) : ℝ)),
            ((2 : ℕ) : ℝ) / (((1 : ℕ) : ℝ) + ((2 : ℕ) : ℝ))) ∧
    classWeights true 1 2 =
      some (Real.sqrt (((1 : ℕ) : ℝ) / (((1 : ℕ) : ℝ) + ((2 : ℕ) : ℝ))),
            Real.sqrt (((2 : ℕ) : ℝ) / (((1 : ℕ) : ℝ) + ((2 : ℕ) : ℝ)))) :=
  ⟨(c2_class_weight_values 1 2 (by decide)).1,
   (c2_class_weight_values 1 2 (by decide)).2.2.2.2⟩

/-! ## C8 -/

/-- The class-weight computation fails (Python `ZeroDivisionError`)
exactly when no sample was indexed. -/
theorem classWeights_eq_none_iff (useSqrt : Bool) (numPos numNeg : ℕ) :
    classWeights useSqrt numPos numNeg = none ↔ numNeg + numPos = 0 := by
  by_cases h : numNeg + numPos = 0
  · rw [classWeights, if_pos h]
    simp [h]
  · rw [classWeights, if_neg h]
    cases useSqrt <;> simp [h]

/-- With at least one indexed sample the class weights are defined. -/
theorem classWeights_isSome_of_pos (useSqrt : Bool) (numPos numNeg : ℕ)
    (h : 0 < numPos + numNeg) :
    (classWeights useSqrt numPos numNeg).isSome = true := by
  rw [classWeights, if_neg (by omega)]
  cases useSqrt <;> simp

/-- Lemma: `XYZTileDataset.__init__` bumps exactly one of the two class counters
per appended sample, so the counters sum to the number of samples. -/
theorem xyzScan_count_eq_length (walk : List WalkEntry)
    (cats : List (Str × Bool)) :
    (xyzScan walk cats).numPos + (xyzScan walk cats).numNeg
      = (xyzScan walk cats).samples.length := by
  refine foldlPreserves
    (fun st => st.numPos + st.numNeg = st.samples.length)
    (xyzWalkStep cats) ?_ walk ⟨0, 0, []⟩ rfl
  intro st e hst
  unfold xyzWalkStep
  split
  · refine foldlPreserves
      (fun st => st.numPos + st.numNeg = st.samples.length)
      (xyzCatStep e) ?_ cats st hst
    intro st kv hst
    unfold xyzCatStep
    split
    · refine foldlPreserves
        (fun st => st.numPos + st.numNeg = st.samples.length)
        (xyzFileStep e.dirpath kv.2) ?_ e.filenames st hst
      intro st fn hst
      unfold xyzFileStep
      split <;> simp only [List.length_append, List.length_singleton] <;> omega
    · exact hst
  · exact hst

/-- Lemma: `ConvLSTMCDataset.__init__` bumps exactly one counter per appended
sample, so the counters sum to the number of samples. -/
theorem convScan_count_eq_length (walk : List WalkEntry)
    (cats : List (Str × Bool)) :
    (convScan walk cats).numPos + (convScan walk cats).numNeg
      = (convScan walk cats).samples.length := by
  refine foldlPreserves
    (fun st => st.numPos + st.numNeg = st.samples.length)
    (convWalkStep cats) ?_ walk ⟨0, 0, []⟩ rfl
  intro st e hst
  unfold convWalkStep
  split
  · refine foldlPreserves
      (fun st => st.numPos + st.numNeg = st.samples.length)
      (convCatStep e) ?_ cats st hst
    intro st kv hst
    unfold convCatStep
    split
    · split <;> simp only [List.length_append, List.length_singleton] <;> omega
    · exact hst
  · exact hst

/-- C8: for both `XYZTileDataset` and `ConvLSTMCDataset`, the counters
sum to the number of indexed samples; when the walk indexes at least one
sample the class-weight computation is defined (no division by zero),
and with zero indexed samples it fails with a `ZeroDivisionError`. -/
theorem c8_class_weights_defined_iff_nonempty (walk : List WalkEntry)
    (cats : List (Str × Bool)) (useSqrt : Bool) :
    ((xyzScan walk cats).numPos + (xyzScan walk cats).numNeg
        = (xyzScan walk cats).samples.length) ∧
    (0 < (xyzScan walk cats).numPos + (xyzScan walk cats).numNeg →
      (classWeights useSqrt (xyzScan walk cats).numPos
        (xyzScan walk cats).numNeg).isSome = true) ∧
    ((xyzScan walk cats).numPos + (xyzScan walk cats).numNeg = 0 →
      classWeights useSqrt (xyzScan walk cats).numPos
        (xyzScan walk cats).numNeg = none) ∧
    ((convScan walk cats).numPos + (convScan walk cats).numNeg
        = (convScan walk cats).samples.length) ∧
    (0 < (convScan walk cats).numPos + (convScan walk cats).numNeg →
      (classWeights useSqrt (convScan walk cats).numPos
        (convScan walk cats).numNeg).isSome = true) ∧
    ((convScan walk cats).numPos + (convScan walk cats).numNeg = 0 →
      classWeights useSqrt (convScan walk cats).numPos
        (convScan walk cats).numNeg = none) := by
  refine ⟨xyzScan_count_eq_length walk cats, ?_, ?_,
    convScan_count_eq_length walk cats, ?_, ?_⟩
  · exact fun h => classWeights_isSome_of_pos useSqrt _ _ h
  · intro h
    exact (classWeights_eq_none_iff useSqrt _ _).2 (by omega)
  · exact fun h => classWeights_isSome_of_pos useSqrt _ _ h
  · intro h
    exact (classWeights_eq_none_iff useSqrt _ _).2 (by omega)

/-- Witness: a walk with one positive leaf directory gives nonzero
counters and defined class weights. -/
theorem c8_class_weights_defined_iff_nonempty_witness :
    0 < (xyzScan [⟨chars "root/pos/1", [], [chars "t.png"]⟩]
          [(chars "pos", true)]).numPos +
        (xyzScan [⟨chars "root/pos/1", [], [chars "t.png"]⟩]
          [(chars "pos", true)]).numNeg ∧
    (classWeights false
      (xyzScan [⟨chars "root/pos/1", [], [chars "t.png"]⟩]
        [(chars "pos", true)]).numPos
      (xyzScan [⟨chars "root/pos/1", [], [chars "t.png"]⟩]
        [(chars "pos", true)]).numNeg).isSome = true :=
  ⟨by decide,
   (c8_class_weights_defined_iff_nonempty
      [⟨chars "root/pos/1", [], [chars "t.png"]⟩]
      [(chars "pos", true)] false).2.1 (by decide)⟩

/-! ## C7 -/

/-- Every record indexed by `XYZTileDataset.__init__` has exactly the
keys `dirpath`, `filename`, `label`. -/
theorem xyzScan_record_keys (walk : List WalkEntry)
    (cats : List (Str × Bool)) :
    ∀ r ∈ (xyzScan walk cats).samples,
      r.map Prod.fst = [chars "dirpath", chars "filename", chars "label"] := by
  refine foldlPreserves
    (fun st => ∀ r ∈ st.samples,
      r.map Prod.fst = [chars "dirpath", chars "filename", chars "label"])
    (xyzWalkStep cats) ?_ walk ⟨0, 0, []⟩ (by simp)
  intro st e hst
  unfold xyzWalkStep
  split
  · refine foldlPreserves
      (fun st => ∀ r ∈ st.samples,
        r.map Prod.fst = [chars "dirpath", chars "filename", chars "label"])
      (xyzCatStep e) ?_ cats st hst
    intro st kv hst
    unfold xyzCatStep
    split
    · refine foldlPreserves
        (fun st => ∀ r ∈ st.samples,
          r.map Prod.fst = [chars "dirpath", chars "filename", chars "label"])
        (xyzFileStep e.dirpath kv.2) ?_ e.filenames st hst
      intro st fn hst
      unfold xyzFileStep
      split <;>
      · intro r hr
        rw [List.mem_append] at hr
        rcases hr with hr | hr
        · exact hst r hr
        · rw [List.mem_singleton] at hr
          subst hr
          rfl
    · exact hst
  · exact hst

/-- Every record indexed by `ConvLSTMCDataset.__init__` has exactly the
keys `dirpath`, `filenames`, `label`. -/
theorem convScan_record_keys (walk : List WalkEntry)
    (cats : List (Str × Bool)) :
    ∀ r ∈ (convScan walk cats).samples,
      r.map Prod.fst = [chars "dirpath", chars "filenames", chars "label"] := by
  refine foldlPreserves
    (fun st => ∀ r ∈ st.samples,
      r.map Prod.fst = [chars "dirpath", chars "filenames", chars "label"])
    (convWalkStep cats) ?_ walk ⟨0, 0, []⟩ (by simp)
  intro st e hst
  unfold convWalkStep
  split
  · refine foldlPreserves
      (fun st => ∀ r ∈ st.samples,
        r.map Prod.fst = [chars "dirpath", chars "filenames", chars "label"])
      (convCatStep e) ?_ cats st hst
    intro st kv hst
    unfold convCatStep
    split
    · split <;>
      · intro r hr
        rw [List.mem_append] at hr
        rcases hr with hr | hr
        · exact hst r hr
        · rw [List.mem_singleton] at hr
          subst hr
          rfl
    · exact hst
  · exact hst

/-- Every record indexed by `XYZObjectDetectionDataset.__init__` has
exactly the keys `dirpath`, `filename`, `annotation`, `label`. -/
theorem objDetScan_record_keys (walk : List WalkEntry)
    (cats : List (Str × Bool)) (annotsDict : List (Str × ShapeAttrs))
    (posOnly : Bool) :
    ∀ r ∈ (objDetScan walk cats annotsDict posOnly).samples,
      r.map Prod.fst = [chars "dirpath", chars "filename",
        chars "annotation", chars "label"] := by
  refine foldlPreserves
    (fun st => ∀ r ∈ st.samples,
      r.map Prod.fst = [chars "dirpath", chars "filename",
        chars "annotation", chars "label"])
    (objDetWalkStep cats annotsDict posOnly) ?_ walk ⟨0, 0, []⟩ (by simp)
  intro st e hst
  unfold objDetWalkStep
  split
  · refine foldlPreserves
      (fun st => ∀ r ∈ st.samples,
        r.map Prod.fst = [chars "dirpath", chars "filename",
          chars "annotation", chars "label"])
      (objDetCatStep annotsDict posOnly e) ?_ cats st hst
    intro st kv hst
    unfold objDetCatStep
    split
    · exact hst
    · split
      · refine foldlPreserves
          (fun st => ∀ r ∈ st.samples,
            r.map Prod.fst = [chars "dirpath", chars "filename",
              chars "annotation", chars "label"])
          (objDetAnnStep e kv.2) ?_ annotsDict st hst
        intro st ta hst
        unfold objDetAnnStep
        split
        · refine foldlPreserves
            (fun st => ∀ r ∈ st.samples,
              r.map Prod.fst = [chars "dirpath", chars "filename",
                chars "annotation", chars "label"])
            (objDetFileStep e.dirpath ta.2 kv.2) ?_ e.filenames st hst
          intro st fn hst
          unfold objDetFileStep
          split <;>
          · intro r hr
            rw [List.mem_append] at hr
            rcases hr with hr | hr
            · exact hst r hr
            · rw [List.mem_singleton] at hr
              subst hr
              rfl
        · exact hst
      · exact hst
  · exact hst

/-- C7 counterexample: a record shaped exactly as the claim prescribes
for the object-detection datasets — keys `dirpath`, `filename`, `label`
and an `annotation` — is rejected (`KeyError`) by
`XYZObjectDetectionDatasetTwo.__getitem__`, which reads the keys
`annotations` and `filepath` instead; so that class's samples do not have
the claimed record shape. -/
theorem c7_counterexample_dataset_two_shape :
    datasetTwoGetItem (fun _ => ([] : Img)) (256, 256)
      [(chars "dirpath", .pstr (chars "root/pos/1")),
       (chars "filename", .pstr (chars "t.png")),
       (chars "label", .pbool true),
       (chars "annotation", .pshape ⟨0, 0, 1, 1⟩)] = none := by
  decide

/-- C7 (amended): records built by `XYZTileDataset`, `ConvLSTMCDataset`
and `XYZObjectDetectionDataset` carry a directory path, a filename (a
filename list for the sequence dataset) and a label, the object-detection
one additionally an annotation; `XYZObjectDetectionDatasetTwo` instead
consumes records keyed by a full `filepath` and an `annotations` value:
its `__getitem__` succeeds only on records providing those two keys. -/
theorem c7_record_shapes_amended :
    (∀ (walk : List WalkEntry) (cats : List (Str × Bool)),
      ∀ r ∈ (xyzScan walk cats).samples,
        r.map Prod.fst = [chars "dirpath", chars "filename", chars "label"]) ∧
    (∀ (walk : List WalkEntry) (cats : List (Str × Bool)),
      ∀ r ∈ (convScan walk cats).samples,
        r.map Prod.fst = [chars "dirpath", chars "filenames", chars "label"]) ∧
    (∀ (walk : List WalkEntry) (cats : List (Str × Bool))
        (annotsDict : List (Str × ShapeAttrs)) (posOnly : Bool),
      ∀ r ∈ (objDetScan walk cats annotsDict posOnly).samples,
        r.map Prod.fst = [chars "dirpath", chars "filename",
          chars "annotation", chars "label"]) ∧
    (∀ (load : Str → Img) (origSize : ℚ × ℚ) (sample : SampleRec)
        (out : Img × BBTarget),
      datasetTwoGetItem load origSize sample = some out →
        (pyDictGet (chars "annotations") sample).isSome = true ∧
        (pyDictGet (chars "filepath") sample).isSome = true) := by
  refine ⟨xyzScan_record_keys, convScan_record_keys, objDetScan_record_keys, ?_⟩
  intro load origSize sample out h
  unfold datasetTwoGetItem at h
  cases ha : pyDictGet (chars "annotations") sample with
  | none =>
    rw [ha] at h
    exact Option.noConfusion h
  | some v =>
    rw [ha] at h
    cases v with
    | pannots a =>
      cases hf : pyDictGet (chars "filepath") sample with
      | none =>
        rw [hf] at h
        exact Option.noConfusion h
      | some w =>
        rw [hf] at h
        cases w with
        | pstr s => exact ⟨rfl, rfl⟩
        | pstrs l => exact Option.noConfusion h
        | pbool b => exact Option.noConfusion h
        | pshape sa => exact Option.noConfusion h
        | pannots a2 => exact Option.noConfusion h
    | pstr s => exact Option.noConfusion h
    | pstrs l => exact Option.noConfusion h
    | pbool b => exact Option.noConfusion h
    | pshape sa => exact Option.noConfusion h

/-- Witness: concrete records of each builder have the stated keys, and a
`filepath`/`annotations`-keyed record is accepted by
`XYZObjectDetectionDatasetTwo.__getitem__`. -/
theorem c7_record_shapes_amended_witness :
    (xyzRecord (chars "root/pos/1") (chars "t.png") true).map Prod.fst
      = [chars "dirpath", chars "filename", chars "label"] ∧
    (pyDictGet (chars "annotations")
        [(chars "filepath", PyVal.pstr (chars "root/pos/1/t.png")),
         (chars "annotations", PyVal.pannots none)]).isSome = true ∧
    (pyDictGet (chars "filepath")
        [(chars "filepath", PyVal.pstr (chars "root/pos/1/t.png")),
         (chars "annotations", PyVal.pannots none)]).isSome = true :=
  ⟨(c7_record_shapes_amended).1
      [⟨chars "root/pos/1", [], [chars "t.png"]⟩] [(chars "pos", true)]
      (xyzRecord (chars "root/pos/1") (chars "t.png") true) (by decide),
   ((c7_record_shapes_amended).2.2.2 (fun _ => ([] : Img)) (256, 256)
      [(chars "filepath", PyVal.pstr (chars "root/pos/1/t.png")),
       (chars "annotations", PyVal.pannots none)]
      (([] : Img), ⟨[], []⟩) (by decide)).1,
   ((c7_record_shapes_amended).2.2.2 (fun _ => ([] : Img)) (256, 256)
      [(chars "filepath", PyVal.pstr (chars "root/pos/1/t.png")),
       (chars "annotations", PyVal.pannots none)]
      (([] : Img), ⟨[], []⟩) (by decide)).2⟩

/-! ## C1 -/

/-- C1: with data augmentation enabled, `ConvLSTMCDataset.__getitem__`
draws a single transform index (and a single rotation angle, fixed to 0
when rotation is disabled) before the frame loop, and every frame of the
returned stack is the corresponding sorted filename's loaded image under
`spatial_transform` with that same index and angle. -/
theorem c1_conv_aug_synchronized (load : Str → Img) (rot : ℤ → Img → Img)
    (useRot : Bool) (rng : ℕ → ℤ) (sample : SampleRec) (dirpath : Str)
    (filenamesRaw : List Str) (label : Bool) (out : List Img × Bool)
    (hd : pyDictGet (chars "dirpath") sample = some (.pstr dirpath))
    (hf : pyDictGet (chars "filenames") sample = some (.pstrs filenamesRaw))
    (hl : pyDictGet (chars "label") sample = some (.pbool label))
    (h : convGetItem load rot true useRot rng sample = some out) :
    ∃ transformIdx angle : ℤ,
      0 ≤ transformIdx ∧ transformIdx ≤ (if useRot then 3 else 2) ∧
      (useRot = false → angle = 0) ∧
      out.1 = (sortFilenames filenamesRaw).map (fun filename =>
        spatialTransform rot
          (load (pyReplaceBackslash (joinPath dirpath filename)))
          angle transformIdx) := by
  unfold convGetItem at h
  rw [hd, hf, hl] at h
  have h' := Option.some.inj h
  refine ⟨if useRot then pyRandint 0 3 (rng 0) else pyRandint 0 2 (rng 0),
    if useRot then pyRandint (-30) 30 (rng 1) else 0, ?_, ?_, ?_, ?_⟩
  · cases useRot
    · simpa using (pyRandint_bounds 0 2 (rng 0) (by omega)).1
    · simpa using (pyRandint_bounds 0 3 (rng 0) (by omega)).1
  · cases useRot
    · simpa using (pyRandint_bounds 0 2 (rng 0) (by omega)).2
    · simpa using (pyRandint_bounds 0 3 (rng 0) (by omega)).2
  · intro hr
    rw [hr]
    simp
  · rw [← h']
    simp

/-- Witness: a two-frame sample under augmentation without rotation. -/
theorem c1_conv_aug_synchronized_witness :
    ∃ transformIdx angle : ℤ,
      0 ≤ transformIdx ∧ transformIdx ≤ (if false then 3 else 2) ∧
      (false = false → angle = 0) ∧
      (([[[(1 : ℚ)]], [[(1 : ℚ)]]] : List Img), true).1 =
        (sortFilenames [chars "b", chars "a"]).map (fun filename =>
          spatialTransform (fun _ image => image)
            ((fun _ => [[(1 : ℚ)]] : Str → Img)
              (pyReplaceBackslash (joinPath (chars "d") filename)))
            angle transformIdx) :=
  c1_conv_aug_synchronized (fun _ => [[(1 : ℚ)]]) (fun _ image => image)
    false (fun _ => 0)
    (convRecord (chars "d") [chars "b", chars "a"] true)
    (chars "d") [chars "b", chars "a"] true
    (([[[(1 : ℚ)]], [[(1 : ℚ)]]] : List Img), true)
    (by decide) (by decide) (by decide) (by decide)

/-! ## C9 -/

/-- C9: the frames returned by `ConvLSTMCDataset.__getitem__` follow the
ascending lexicographic order of the sample's filenames: the sorted list
is an ordered permutation of the raw filename list, it is independent of
the order in which the walk listed the files, and frame `i` is exactly
the loaded (and, under augmentation, spatially transformed) image of the
`i`-th smallest filename, stated both as a map over the sorted list and
pointwise per index. -/
theorem c9_frames_sorted_lexicographically (load : Str → Img)
    (rot : ℤ → Img → Img) (useAug useRot : Bool) (rng : ℕ → ℤ)
    (sample : SampleRec) (dirpath : Str) (filenamesRaw : List Str)
    (label : Bool) (out : List Img × Bool)
    (hd : pyDictGet (chars "dirpath") sample = some (.pstr dirpath))
    (hf : pyDictGet (chars "filenames") sample = some (.pstrs filenamesRaw))
    (hl : pyDictGet (chars "label") sample = some (.pbool label))
    (h : convGetItem load rot useAug useRot rng sample = some out) :
    List.Sorted (· ≤ ·) (sortFilenames filenamesRaw) ∧
    List.Perm (sortFilenames filenamesRaw) filenamesRaw ∧
    (∀ other : List Str, List.Perm other filenamesRaw →
      sortFilenames other = sortFilenames filenamesRaw) ∧
    out.1.length = filenamesRaw.length ∧
    out.1 = (sortFilenames filenamesRaw).map (fun filename =>
      if useAug then
        spatialTransform rot
          (load (pyReplaceBackslash (joinPath dirpath filename)))
          (if useRot then pyRandint (-30) 30 (rng 1) else 0)
          (if useRot then pyRandint 0 3 (rng 0) else pyRandint 0 2 (rng 0))
      else load (pyReplaceBackslash (joinPath dirpath filename))) ∧
    (∀ i : ℕ,
      out.1.get? i = ((sortFilenames filenamesRaw).get? i).map
        (fun filename =>
          if useAug then
            spatialTransform rot
              (load (pyReplaceBackslash (joinPath dirpath filename)))
              (if useRot then pyRandint (-30) 30 (rng 1) else 0)
              (if useRot then pyRandint 0 3 (rng 0)
               else pyRandint 0 2 (rng 0))
          else load (pyReplaceBackslash (joinPath dirpath filename)))) := by
  unfold convGetItem at h
  rw [hd, hf, hl] at h
  have h' := Option.some.inj h
  have hmap : out.1 = (sortFilenames filenamesRaw).map (fun filename =>
      if useAug then
        spatialTransform rot
          (load (pyReplaceBackslash (joinPath dirpath filename)))
          (if useRot then pyRandint (-30) 30 (rng 1) else 0)
          (if useRot then pyRandint 0 3 (rng 0) else pyRandint 0 2 (rng 0))
      else load (pyReplaceBackslash (joinPath dirpath filename))) := by
    rw [← h']
  refine ⟨List.sorted_insertionSort _ _, List.perm_insertionSort _ _,
    ?_, ?_, hmap, ?_⟩
  · intro other hperm
    exact List.eq_of_perm_of_sorted
      ((List.perm_insertionSort _ other).trans
        (hperm.trans (List.perm_insertionSort _ filenamesRaw).symm))
      (List.sorted_insertionSort _ _) (List.sorted_insertionSort _ _)
  · rw [hmap]
    simp [sortFilenames, List.length_insertionSort]
  · intro i
    rw [hmap, List.get?_map]

/-- Witness: a three-frame sample without augmentation, listed out of
order by the walk; every frame is the load of its sorted filename. -/
theorem c9_frames_sorted_lexicographically_witness :
    List.Sorted (· ≤ ·) (sortFilenames [chars "c", chars "a", chars "b"]) ∧
    List.Perm (sortFilenames [chars "c", chars "a", chars "b"])
      [chars "c", chars "a", chars "b"] ∧
    (∀ other : List Str,
      List.Perm other [chars "c", chars "a", chars "b"] →
        sortFilenames other = sortFilenames [chars "c", chars "a", chars "b"]) ∧
    ([[([] : List ℚ)], [([] : List ℚ)], [([] : List ℚ)]] : List Img).length
      = ([chars "c", chars "a", chars "b"] : List Str).length ∧
    ([[([] : List ℚ)], [([] : List ℚ)], [([] : List ℚ)]] : List Img)
      = (sortFilenames [chars "c", chars "a", chars "b"]).map
          (fun _ => ([([] : List ℚ)] : Img)) ∧
    (∀ i : ℕ,
      ([[([] : List ℚ)], [([] : List ℚ)], [([] : List ℚ)]] : List Img).get? i
        = ((sortFilenames [chars "c", chars "a", chars "b"]).get? i).map
            (fun _ => ([([] : List ℚ)] : Img))) :=
  c9_frames_sorted_lexicographically (fun _ => [([] : List ℚ)])
    (fun _ image => image) false true (fun _ => 7)
    (convRecord (chars "e") [chars "c", chars "a", chars "b"] false)
    (chars "e") [chars "c", chars "a", chars "b"] false
    (([[([] : List ℚ)], [([] : List ℚ)], [([] : List ℚ)]] : List Img), false)
    (by decide) (by decide) (by decide) (by decide)

/-! ## C5 -/

/-- C5: for a filepath whose last two `/`-separated components are the
parent directory name and the file name (neither containing a separator),
`get_category_from_filepath` returns the parent directory name, and
`EurosatDataset.__getitem__` returns `Y = categories[parent]` — the
manifest entry of the file's immediate parent directory. -/
theorem c5_target_is_parent_dir_label (d p f : Str) (cats : List (Str × ℤ))
    (hp1 : '/' ∉ p) (hp2 : '\\' ∉ p) (hf1 : '/' ∉ f) (hf2 : '\\' ∉ f) :
    getCategoryFromFilepath (d ++ '/' :: (p ++ '/' :: f)) = some p ∧
    ∀ (rot : ℤ → Img → Img) (useAug : Bool) (rng : ℕ → ℤ) (coin : ℤ → ℚ)
      (image : Img) (y : ℤ),
      pyDictGet p cats = some y →
      ∃ X : Img,
        eurosatGetItem cats rot useAug rng coin (d ++ '/' :: (p ++ '/' :: f))
          image = some (X, y) := by
  have hslash : ¬ ('/' : Char) = '\\' := by decide
  have hp := pyReplaceBackslash_eq_self p hp2
  have hf' := pyReplaceBackslash_eq_self f hf2
  have h1 : pyReplaceBackslash (d ++ '/' :: (p ++ '/' :: f))
      = pyReplaceBackslash d ++ '/' :: (p ++ '/' :: f) := by
    simp only [pyReplaceBackslash] at hp hf' ⊢
    simp [List.map_append, List.map_cons, hp, hf', hslash]
  have h2 : pySplit '/' (pyReplaceBackslash d ++ '/' :: (p ++ '/' :: f))
      = pySplit '/' (pyReplaceBackslash d) ++ ([p] ++ [f]) := by
    rw [pySplit_append_sep, pySplit_append_sep,
      pySplit_no_sep '/' p hp1, pySplit_no_sep '/' f hf1]
  have hcat : getCategoryFromFilepath (d ++ '/' :: (p ++ '/' :: f)) = some p := by
    unfold getCategoryFromFilepath
    rw [h1, h2]
    have hlen : (pySplit '/' (pyReplaceBackslash d) ++ ([p] ++ [f])).length
        = (pySplit '/' (pyReplaceBackslash d)).length + 2 := by simp
    rw [pyNegIdx, if_pos ⟨by omega, by omega⟩, hlen]
    have he : (pySplit '/' (pyReplaceBackslash d)).length + 2 - 2
        = (pySplit '/' (pyReplaceBackslash d)).length := by omega
    rw [he, List.get?_append_right (le_refl _)]
    simp
  refine ⟨hcat, ?_⟩
  intro rot useAug rng coin image y hy
  refine ⟨eurosatAugment rot useAug rng coin (preprocess image 10000), ?_⟩
  simp only [eurosatGetItem, hcat, hy, eurosatAugment]

/-- Witness: the label of `data/Forest/im1.tif` is the manifest entry for
`Forest`. -/
theorem c5_target_is_parent_dir_label_witness :
    getCategoryFromFilepath
      (chars "data" ++ '/' :: (chars "Forest" ++ '/' :: chars "im1.tif"))
      = some (chars "Forest") ∧
    ∃ X : Img,
      eurosatGetItem [(chars "Forest", (3 : ℤ))] (fun _ image => image) false
        (fun _ => 0) (fun _ => 0)
        (chars "data" ++ '/' :: (chars "Forest" ++ '/' :: chars "im1.tif"))
        [[(20000 : ℚ)]] = some (X, 3) :=
  ⟨(c5_target_is_parent_dir_label (chars "data") (chars "Forest")
      (chars "im1.tif") [(chars "Forest", (3 : ℤ))]
      (by decide) (by decide) (by decide) (by decide)).1,
   (c5_target_is_parent_dir_label (chars "data") (chars "Forest")
      (chars "im1.tif") [(chars "Forest", (3 : ℤ))]
      (by decide) (by decide) (by decide) (by decide)).2
     (fun _ image => image) false (fun _ => 0) (fun _ => 0)
     [[(20000 : ℚ)]] 3 (by decide)⟩

/-! ## C6 -/

/-- C6: whenever `EurosatDataset.__getitem__` returns a sample, its `X`
is the randomly chosen augmentation applied to the `preprocess`-ed image
— normalization happens before any augmentation and before return — and
`preprocess` divides every pixel of the loaded image by 10000. -/
theorem c6_normalized_before_augmentation (cats : List (Str × ℤ))
    (rot : ℤ → Img → Img) (useAug : Bool) (rng : ℕ → ℤ) (coin : ℤ → ℚ)
    (filepath : Str) (image : Img) (X : Img) (y : ℤ)
    (h : eurosatGetItem cats rot useAug rng coin filepath image
      = some (X, y)) :
    X = eurosatAugment rot useAug rng coin (preprocess image 10000) ∧
    ∀ i j : ℕ,
      ((preprocess image 10000).get? i).bind (fun row => row.get? j) =
        ((image.get? i).bind (fun row => row.get? j)).map
          (fun v => v / 10000) := by
  constructor
  · unfold eurosatGetItem at h
    cases hc : getCategoryFromFilepath filepath with
    | none =>
      rw [hc] at h
      exact Option.noConfusion h
    | some category =>
      rw [hc] at h
      dsimp only at h
      cases ht : pyDictGet category cats with
      | none =>
        rw [ht] at h
        exact Option.noConfusion h
      | some target =>
        rw [ht] at h
        dsimp only at h
        have h' := Option.some.inj h
        have hX := congrArg Prod.fst h'
        simp only at hX
        rw [← hX]
        rfl
  · intro i j
    simp only [preprocess, List.get?_map]
    cases himg : image.get? i with
    | none => rfl
    | some row => simp [List.get?_map]

/-- Witness: a single-pixel image of value 20000 is normalized to 2
before the (here trivial) augmentation. -/
theorem c6_normalized_before_augmentation_witness :
    eurosatGetItem [(chars "c", (5 : ℤ))] (fun _ image => image) true
      (fun _ => 0) (fun _ => 0) (chars "r/c/f.png") [[(20000 : ℚ)]]
      = some ([[(2 : ℚ)]], 5) ∧
    ([[(2 : ℚ)]] : Img) = eurosatAugment (fun _ image => image) true
      (fun _ => 0) (fun _ => 0) (preprocess [[(20000 : ℚ)]] 10000) := by
  have hcat : getCategoryFromFilepath (chars "r/c/f.png")
      = some (chars "c") := by decide
  have hdg : pyDictGet (chars "c") [(chars "c", (5 : ℤ))]
      = some 5 := by decide
  have hget : eurosatGetItem [(chars "c", (5 : ℤ))] (fun _ image => image)
      true (fun _ => 0) (fun _ => 0) (chars "r/c/f.png") [[(20000 : ℚ)]]
      = some ([[(2 : ℚ)]], 5) := by
    simp only [eurosatGetItem, hcat, hdg]
    norm_num [pyRandint, eurosatHorizontalFlip, preprocess]
  exact ⟨hget,
    (c6_normalized_before_augmentation [(chars "c", (5 : ℤ))]
      (fun _ image => image) true (fun _ => 0) (fun _ => 0)
      (chars "r/c/f.png") [[(20000 : ℚ)]] [[(2 : ℚ)]] 5 hget).1⟩
